import Mathlib

/-!
Verification development for the `weld-demo` notebook.

The notebook defines a NumPy baseline (`run_numpy_addition`), a lazily
evaluated vector wrapper `HelloWeldVector` that accumulates a Weld program
as a string (`add`, `__iadd__`, `vector_sum`), and an accelerated variant
`run_numpy_addition_with_weld`.  We embed those definitions here, model the
external Weld runtime by an interpreter of the documented semantics of the
generated `map`/`merger` fragment, and prove the specification's claims.

Machine arithmetic: the wrapped array has dtype `int32`, so elementwise
updates wrap modulo 2^32; sums (`a.sum()` on an int32 array, and the Weld
`merger[i64,+]`) accumulate in 64-bit integers, wrapping modulo 2^64.
-/

/-- Two's-complement wraparound of an integer into the `int32` range. -/
def wrap32 (x : Int) : Int :=
  (x + 2147483648) % 4294967296 - 2147483648

/-- Two's-complement wraparound of an integer into the `int64` range. -/
def wrap64 (x : Int) : Int :=
  (x + 9223372036854775808) % 18446744073709551616 - 9223372036854775808

/-- Global constant from the notebook: `SIZE = (2 << 28)`, the array length. -/
def SIZE : Nat := 2 <<< 28

/-- Global constant from the notebook: `ITERATIONS = 40`. -/
def ITERATIONS : Nat := 40

/-- One iteration of the baseline loop body `a += i`: NumPy adds the scalar
to every element of the int32 array in place, wrapping modulo 2^32. -/
def numpyAddStep (a : List Int) (i : Nat) : List Int :=
  a.map (fun x => wrap32 (x + (i : Int)))

/-- Contents of the array `a` after `run_numpy_addition(a)` has executed its
loop `for i in xrange(ITERATIONS): a += i` (the function mutates `a` in
place; this is the final state of the caller's array). -/
def run_numpy_addition_state (a : List Int) : List Int :=
  (List.range ITERATIONS).foldl numpyAddStep a

/-- `a.sum()` on an int32 NumPy array: elements are accumulated into an
int64 accumulator starting from 0, wrapping modulo 2^64. -/
def int64Sum (a : List Int) : Int :=
  a.foldl (fun s x => wrap64 (s + x)) 0

/-- The notebook's baseline `run_numpy_addition(a)`: runs the in-place
update loop and returns `a.sum()` of the updated array. -/
def run_numpy_addition (a : List Int) : Int :=
  int64Sum (run_numpy_addition_state a)

/-- Encoders from `weld.encoders` used by the notebook (opaque markers). -/
inductive WeldEncoder
  | numpyArrayEncoder
deriving DecidableEq, Repr

/-- Decoders from `weld.encoders` used by the notebook (opaque markers). -/
inductive WeldDecoder
  | numpyArrayDecoder
  | scalarDecoder
deriving DecidableEq, Repr

/-- `_encoder = NumpyArrayEncoder()` from the notebook. -/
def _encoder : WeldEncoder := WeldEncoder.numpyArrayEncoder

/-- `_decoder = NumpyArrayDecoder()` from the notebook. -/
def _decoder : WeldDecoder := WeldDecoder.numpyArrayDecoder

/-- Model of `weld.weldobject.WeldObject`: it carries the encoder and
decoder, the context mapping registered input names to their data (here:
int32 vectors), and the accumulated program string `weld_code`. -/
structure WeldObject where
  encoder : WeldEncoder
  decoder : WeldDecoder
  context : List (String × List Int)
  weld_code : String
deriving DecidableEq, Repr

/-- Modelled from the spec: `WeldObject.update(vector, WeldVec(WeldInt()))`
of the external weld library (not part of this repository) registers the
vector in the object's context under a fresh name and returns that name. -/
def WeldObject.update (obj : WeldObject) (vector : List Int) :
    String × WeldObject :=
  let name := "_inp" ++ toString obj.context.length
  (name, { obj with context := obj.context ++ [(name, vector)] })

/-- The notebook's `HelloWeldVector`: wraps a NumPy int32 array and a
`WeldObject` holding the deferred computation. -/
structure HelloWeldVector where
  vector : List Int
  weldobj : WeldObject
deriving DecidableEq, Repr

/-- The notebook's `__init__`: store the wrapped vector, create a
`WeldObject` with the NumPy encoder and decoder, register the vector under
a fresh name, and set `weld_code` to that name. -/
def HelloWeldVector.init (vector : List Int) : HelloWeldVector :=
  let obj0 : WeldObject :=
    { encoder := _encoder, decoder := _decoder, context := [], weld_code := "" }
  let p := obj0.update vector
  { vector := vector, weldobj := { p.2 with weld_code := p.1 } }

/-- The notebook's `add` template `"map({0}, |e| e + {1})"` instantiated at
the current code and the number (as `str(number)` does). -/
def addTemplate (code : String) (number : Int) : String :=
  "map(" ++ code ++ ", |e| e + " ++ toString number ++ ")"

/-- The notebook's `add(self, number)`: wrap the current `weld_code` in one
`map(..., |e| e + number)` layer and return `self`. -/
def HelloWeldVector.add (self : HelloWeldVector) (number : Int) :
    HelloWeldVector :=
  { self with
    weldobj := { self.weldobj with
      weld_code := addTemplate self.weldobj.weld_code number } }

/-- The notebook's `__iadd__(self, other)`: `return self.add(other)`. -/
def HelloWeldVector.iadd (self : HelloWeldVector) (other : Int) :
    HelloWeldVector :=
  self.add other

/-- The notebook's `vector_sum` template
`"result(for({0}, merger[i64,+], |b,i,e| merge(b, i64(e))))"`. -/
def sumTemplate (code : String) : String :=
  "result(for(" ++ code ++ ", merger[i64,+], |b,i,e| merge(b, i64(e))))"

/-- Abstract syntax of the Weld fragment the notebook generates: a named
input vector, an elementwise `map(e, |e| e + n)`, and the summing
`result(for(e, merger[i64,+], |b,i,e| merge(b, i64(e))))` reduction. -/
inductive WeldExpr
  | inputName (name : String)
  | mapAdd (e : WeldExpr) (n : Int)
  | sumFor (e : WeldExpr)
deriving DecidableEq, Repr

/-- Characters of the prefix of the `map` template. -/
def mapPreChars : List Char := "map(".toList

/-- Characters of the separator between the mapped expression and the added
literal inside the `map` template. -/
def addSepChars : List Char := ", |e| e + ".toList

/-- Characters of the prefix of the `vector_sum` template. -/
def sumPreChars : List Char := "result(for(".toList

/-- Characters of the suffix of the `vector_sum` template. -/
def sumSufChars : List Char := ", merger[i64,+], |b,i,e| merge(b, i64(e))))".toList

/-- Split a character list at the LAST occurrence of `pat`, returning the
parts before and after it, or `none` when `pat` does not occur. -/
def lastSplit (pat : List Char) : List Char → Option (List Char × List Char)
  | [] => none
  | c :: rest =>
    match lastSplit pat rest with
    | some (pre, post) => some (c :: pre, post)
    | none =>
      if pat.isPrefixOf (c :: rest) then
        some ([], (c :: rest).drop pat.length)
      else
        none

/-- Numeric value of a decimal digit character. -/
def digitVal (c : Char) : Option Nat :=
  if '0' ≤ c ∧ c ≤ '9' then some (c.toNat - '0'.toNat) else none

/-- Accumulating decimal parser for a digit string. -/
def parseNatAux (acc : Nat) : List Char → Option Nat
  | [] => some acc
  | c :: cs =>
    match digitVal c with
    | some d => parseNatAux (acc * 10 + d) cs
    | none => none

/-- Parse a nonempty decimal digit string. -/
def parseNatChars : List Char → Option Nat
  | [] => none
  | c :: cs => parseNatAux 0 (c :: cs)

/-- Parse an integer literal as produced by Python's `str` on an int. -/
def parseIntChars : List Char → Option Int
  | '-' :: cs => (parseNatChars cs).map (fun n => -(n : Int))
  | cs => (parseNatChars cs).map (fun n => (n : Int))

/-- Recursive-descent parser for the generated Weld fragment, with fuel for
termination.  A string of the `vector_sum` template shape parses as
`sumFor`, one of the `map` template shape as `mapAdd` (splitting at the
last separator occurrence, since the spliced literal contains no
separator), and anything else is a bare input name. -/
def parseWeld : Nat → List Char → Option WeldExpr
  | 0, _ => none
  | fuel + 1, s =>
    if sumPreChars.isPrefixOf s ∧ sumSufChars.isSuffixOf s ∧
        sumPreChars.length + sumSufChars.length ≤ s.length then
      (parseWeld fuel
        ((s.drop sumPreChars.length).take
          (s.length - sumPreChars.length - sumSufChars.length))).map .sumFor
    else if mapPreChars.isPrefixOf s ∧ s.getLast? = some ')' then
      match lastSplit addSepChars ((s.drop mapPreChars.length).dropLast) with
      | some (pre, post) =>
        match parseIntChars post with
        | some n => (parseWeld fuel pre).map (fun e => .mapAdd e n)
        | none => none
      | none => none
    else
      some (.inputName (String.mk s))

/-- Parse a full `weld_code` program string. -/
def weldParse (code : String) : Option WeldExpr :=
  parseWeld (code.toList.length + 1) code.toList

/-- Values of the Weld fragment: an i32 vector or an i64 scalar. -/
inductive WeldValue
  | vec (v : List Int)
  | long (x : Int)
deriving DecidableEq, Repr

/-- Modelled from the spec: the external accelerator's documented semantics
for the generated fragment (the runtime itself is not in this repository).
A name denotes the registered input vector; `map(e, |e| e + n)` adds `n` to
every element in i32 arithmetic; the `merger[i64,+]` reduction sums the
elements after an exact `i64(e)` cast, in i64 arithmetic. -/
def evalWeld (ctx : List (String × List Int)) : WeldExpr → Option WeldValue
  | .inputName n => (ctx.lookup n).map .vec
  | .mapAdd e n =>
    match evalWeld ctx e with
    | some (.vec v) => some (.vec (v.map (fun x => wrap32 (x + n))))
    | _ => none
  | .sumFor e =>
    match evalWeld ctx e with
    | some (.vec v) => some (.long (int64Sum v))
    | _ => none

/-- Modelled from the spec: `WeldObject.evaluate` of the external weld
library parses the accumulated `weld_code` and runs it on the registered
context. -/
def WeldObject.evaluate (obj : WeldObject) : Option WeldValue :=
  (weldParse obj.weld_code).bind (evalWeld obj.context)

/-- The notebook's `vector_sum(self)`: save `weld_code`, wrap it in the
summing template, switch to `ScalarDecoder()`, evaluate, restore the
decoder to `_decoder` and `weld_code` to the saved string, return the
scalar result (paired here with the final state of `self`). -/
def HelloWeldVector.vector_sum (self : HelloWeldVector) :
    Option Int × HelloWeldVector :=
  let prev_code := self.weldobj.weld_code
  let obj1 : WeldObject :=
    { self.weldobj with
      weld_code := sumTemplate prev_code
      decoder := WeldDecoder.scalarDecoder }
  let result : Option Int :=
    match obj1.evaluate with
    | some (.long r) => some r
    | _ => none
  let obj2 : WeldObject :=
    { obj1 with decoder := _decoder, weld_code := prev_code }
  (result, { self with weldobj := obj2 })

/-- The notebook's `run_numpy_addition_with_weld(a)`: wrap the array in a
`HelloWeldVector`, run `a += i` for `i in xrange(ITERATIONS)`, and request
the terminal `vector_sum`. -/
def run_numpy_addition_with_weld (a : List Int) : Option Int :=
  ((List.range ITERATIONS).foldl
    (fun v i => v.iadd (i : Int)) (HelloWeldVector.init a)).vector_sum.1

/-- The `weld_code` string built by starting from code `c` and performing
the `add` calls `add(0), add(1), ..., add(n-1)` in order. -/
def buildCodeFrom (c : String) : Nat → String
  | 0 => c
  | n + 1 => addTemplate (buildCodeFrom c n) (n : Int)

/-- The abstract syntax tree of the program `buildCodeFrom "_inp0" n`. -/
def buildAst : Nat → WeldExpr
  | 0 => .inputName "_inp0"
  | n + 1 => .mapAdd (buildAst n) (n : Int)

/-- Operations a client can perform on a `HelloWeldVector` after
construction: an `add(n)` call (also reached through `+=`) or a
`vector_sum()` call. -/
inductive HWOp
  | add (n : Int)
  | vectorSum
deriving DecidableEq, Repr

/-- Calls into the external runtime: `vector_sum` invokes
`weldobj.evaluate` on the current summing program; no other method of the
class calls into the runtime. -/
inductive RuntimeEvent
  | evaluateCall (code : String)
deriving DecidableEq, Repr

/-- Whether an operation is the terminal scalar aggregate `vector_sum`. -/
def HWOp.isTerminalSum : HWOp → Bool
  | .vectorSum => true
  | .add _ => false

/-- One operation on a `HelloWeldVector`, together with the runtime calls
its body performs: the body of `add` contains no `evaluate` call, the body
of `vector_sum` calls `evaluate` exactly once, on the summing program. -/
def stepOp (s : HelloWeldVector) : HWOp → HelloWeldVector × List RuntimeEvent
  | .add n => (s.add n, [])
  | .vectorSum =>
    (s.vector_sum.2, [.evaluateCall (sumTemplate s.weldobj.weld_code)])

/-- Run a sequence of operations, collecting all runtime calls. -/
def runOps (s : HelloWeldVector) : List HWOp → HelloWeldVector × List RuntimeEvent
  | [] => (s, [])
  | op :: ops =>
    let p := stepOp s op
    let q := runOps p.1 ops
    (q.1, p.2 ++ q.2)

/-- The nested program text the specification describes for a sequence of
`add` calls: `add(n1), ..., add(nk)` starting from code `N` yields
`map(...map(map(N, |e| e + n1), |e| e + n2)..., |e| e + nk)`. -/
def mapNest : String → List Int → String
  | code, [] => code
  | code, n :: ns =>
    mapNest ("map(" ++ code ++ ", |e| e + " ++ toString n ++ ")") ns

/-- The class attribute dictionary of `HelloWeldVector` (Python stores
attributes assigned through the class on the class object itself). -/
structure HWClassAttrs where
  vector : List Int
  weldobj : WeldObject
deriving DecidableEq, Repr

/-- The per-instance attribute dictionary of a `HelloWeldVector` instance;
a field is `none` when the instance carries no attribute of that name of
its own. -/
structure HWInstanceAttrs where
  vector : Option (List Int)
  weldobj : Option WeldObject
deriving DecidableEq, Repr

/-- `HelloWeldVector(v)` as installed by
`setattr(HelloWeldVector, '__init__', classmethod(__init__))`: the
classmethod descriptor binds the `self` parameter of `__init__` to the
class itself, so both attribute assignments in its body write the CLASS
attribute dictionary (whatever it held before), and the freshly created
instance's own dictionary stays empty. -/
def constructHelloWeldVector (_cls : Option HWClassAttrs) (v : List Int) :
    HWClassAttrs × HWInstanceAttrs :=
  let w := HelloWeldVector.init v
  ({ vector := w.vector, weldobj := w.weldobj },
   { vector := none, weldobj := none })

/-- Python attribute lookup of `inst.vector`: the instance dictionary is
consulted first, then the class dictionary. -/
def attrVector (cls : HWClassAttrs) (inst : HWInstanceAttrs) : List Int :=
  match inst.vector with
  | some v => v
  | none => cls.vector

/-- Python attribute lookup of `inst.weldobj`: the instance dictionary is
consulted first, then the class dictionary. -/
def attrWeldobj (cls : HWClassAttrs) (inst : HWInstanceAttrs) : WeldObject :=
  match inst.weldobj with
  | some w => w
  | none => cls.weldobj

/-- `add` at the level of object identities: the heap maps references to
wrapper objects, `self.add(number)` mutates the referenced object in place
and returns the reference it was called on (`return self`). -/
def addOnHeap (heap : List (Nat × HelloWeldVector)) (selfRef : Nat)
    (number : Int) : List (Nat × HelloWeldVector) × Nat :=
  (heap.map (fun p => if p.1 = selfRef then (p.1, p.2.add number) else p),
   selfRef)

/-- `__iadd__` at the level of object identities: `return self.add(other)`. -/
def iaddOnHeap (heap : List (Nat × HelloWeldVector)) (selfRef : Nat)
    (other : Int) : List (Nat × HelloWeldVector) × Nat :=
  addOnHeap heap selfRef other

/-- `vector_sum` with the runtime's `evaluate` as an explicit fallible
call.  The body contains no `try`/`except`: when `evaluate` raises, the
error is returned as is and the two restoring assignments are skipped. -/
def vectorSumWith {ε : Type} (ev : WeldObject → Except ε Int)
    (self : HelloWeldVector) : Except ε (Int × HelloWeldVector) :=
  let prev_code := self.weldobj.weld_code
  let obj1 : WeldObject :=
    { self.weldobj with
      weld_code := sumTemplate prev_code
      decoder := WeldDecoder.scalarDecoder }
  match ev obj1 with
  | .error e => .error e
  | .ok r =>
    .ok (r, { self with
      weldobj := { obj1 with decoder := _decoder, weld_code := prev_code } })

/-- Operating-system level effects available to the notebook's own code;
the only one it ever performs is an environment-variable assignment. -/
inductive OsEffect
  | setEnv (key value : String)
deriving DecidableEq, Repr

/-- The complete list of operating-system effects performed by the
notebook's own cells, in execution order: the four
`os.environ["WELD_NUM_THREADS"] = ...` assignments.  The notebook creates
no threads, processes, or locks of its own; all parallelism happens inside
the external runtime configured by this variable. -/
def notebookOsEffects : List OsEffect :=
  [.setEnv "WELD_NUM_THREADS" "1",
   .setEnv "WELD_NUM_THREADS" "4",
   .setEnv "WELD_NUM_THREADS" "1",
   .setEnv "WELD_NUM_THREADS" "4"]

/-- Whether an effect is a thread-count configuration of the external
runtime: setting `WELD_NUM_THREADS` to `"1"` or `"4"`. -/
def OsEffect.isThreadCountConfig : OsEffect → Bool
  | .setEnv k v => k == "WELD_NUM_THREADS" && (v == "1" || v == "4")

/-! ## Lemmas about the modelled runtime and the arithmetic -/

set_option maxRecDepth 8000 in
lemma parse_built :
    weldParse (sumTemplate (buildCodeFrom "_inp0" ITERATIONS)) =
      some (.sumFor (buildAst ITERATIONS)) := by decide

lemma eval_built (a : List Int) (n : Nat) :
    evalWeld [("_inp0", a)] (buildAst n) =
      some (.vec ((List.range n).foldl numpyAddStep a)) := by
  induction n with
  | zero => simp [buildAst, evalWeld, List.lookup]
  | succ n ih =>
    rw [buildAst, evalWeld, ih, List.range_succ, List.foldl_append]
    rfl

lemma iadds_state (n : Nat) (s : HelloWeldVector) :
    (List.range n).foldl (fun v i => v.iadd (i : Int)) s =
      { s with weldobj :=
        { s.weldobj with weld_code := buildCodeFrom s.weldobj.weld_code n } } := by
  induction n with
  | zero => rfl
  | succ n ih =>
    rw [List.range_succ, List.foldl_append, ih]
    rfl

lemma iadds_init (a : List Int) :
    (List.range ITERATIONS).foldl (fun v i => v.iadd (i : Int))
        (HelloWeldVector.init a) =
      { vector := a,
        weldobj :=
          { encoder := _encoder, decoder := _decoder,
            context := [("_inp0", a)],
            weld_code := buildCodeFrom "_inp0" ITERATIONS } } := by
  rw [iadds_state]; rfl

lemma evalWeld_sumFor (ctx : List (String × List Int)) (e : WeldExpr) :
    evalWeld ctx (.sumFor e) =
      match evalWeld ctx e with
      | some (.vec v) => some (.long (int64Sum v))
      | _ => none := rfl

/-- The accelerated pipeline returns exactly the baseline's value: the
generated program parses back to the nested-map AST, whose evaluation under
the documented semantics performs the same forty wrapped elementwise
additions and the same 64-bit sum. -/
lemma run_weld_eq (a : List Int) :
    run_numpy_addition_with_weld a = some (run_numpy_addition a) := by
  unfold run_numpy_addition_with_weld
  rw [iadds_init]
  simp only [HelloWeldVector.vector_sum, WeldObject.evaluate]
  rw [parse_built]
  rw [Option.some_bind]
  rw [evalWeld_sumFor, eval_built]
  rfl

lemma wrap32_wrap32_add (s i : Int) : wrap32 (wrap32 s + i) = wrap32 (s + i) := by
  unfold wrap32; omega

lemma wrap64_wrap64_add (s i : Int) : wrap64 (wrap64 s + i) = wrap64 (s + i) := by
  unfold wrap64; omega

lemma wrap32_eq_self (x : Int) (h1 : -2147483648 ≤ x) (h2 : x < 2147483648) :
    wrap32 x = x := by
  unfold wrap32; omega

lemma int64Sum_aux (l : List Int) : ∀ s : Int,
    l.foldl (fun s x => wrap64 (s + x)) (wrap64 s) = wrap64 (s + l.sum) := by
  induction l with
  | nil => intro s; simp
  | cons x l ih =>
    intro s
    rw [List.foldl_cons, wrap64_wrap64_add, ih (s + x), List.sum_cons]
    ring_nf

lemma int64Sum_eq (l : List Int) : int64Sum l = wrap64 l.sum := by
  have h0 : (0 : Int) = wrap64 0 := by decide
  unfold int64Sum
  rw [h0, int64Sum_aux, zero_add]

lemma foldl_numpyAddStep_map (ns : List Nat) : ∀ (a : List Int) (c : Int),
    ns.foldl numpyAddStep (a.map fun x => wrap32 (x + c)) =
      a.map fun x => wrap32 (x + c + (ns.map fun i : Nat => (i : Int)).sum) := by
  induction ns with
  | nil => intro a c; simp
  | cons i ns ih =>
    intro a c
    rw [List.foldl_cons]
    have hstep : numpyAddStep (a.map fun x => wrap32 (x + c)) i =
        a.map fun x => wrap32 (x + (c + (i : Int))) := by
      unfold numpyAddStep
      rw [List.map_map]
      refine List.map_congr_left (fun x _ => ?_)
      show wrap32 (wrap32 (x + c) + (i : Int)) = wrap32 (x + (c + (i : Int)))
      rw [wrap32_wrap32_add]; ring_nf
    rw [hstep, ih a (c + (i : Int))]
    refine List.map_congr_left (fun x _ => ?_)
    simp only [List.map_cons, List.sum_cons]
    ring_nf

lemma range_forty : List.range 40 = 0 :: List.range' 1 39 := by
  rw [List.range_eq_range']; rfl

/-- After the forty `a += i` iterations every element of the int32 array
equals its original value plus 780, in wraparound arithmetic. -/
lemma state_eq (a : List Int) :
    run_numpy_addition_state a = a.map fun x => wrap32 (x + 780) := by
  unfold run_numpy_addition_state ITERATIONS
  rw [range_forty, List.foldl_cons]
  have h0 : numpyAddStep a 0 = a.map fun x => wrap32 (x + 0) := by
    unfold numpyAddStep; simp
  rw [h0, foldl_numpyAddStep_map]
  have hs : ((List.range' 1 39).map fun i : Nat => (i : Int)).sum = 780 := by decide
  rw [hs]
  refine List.map_congr_left (fun x _ => ?_)
  ring_nf

lemma sum_map_add_const (l : List Int) (k : Int) :
    (l.map fun x => x + k).sum = l.sum + k * l.length := by
  induction l with
  | nil => simp
  | cons x l ih => simp [ih]; ring

lemma runOps_events_length (ops : List HWOp) : ∀ s : HelloWeldVector,
    (runOps s ops).2.length = ops.countP HWOp.isTerminalSum := by
  induction ops with
  | nil => intro s; simp [runOps]
  | cons op ops ih =>
    intro s
    cases op <;>
      simp [runOps, stepOp, ih, List.countP_cons, HWOp.isTerminalSum]

lemma stepOp_vector (s : HelloWeldVector) (op : HWOp) :
    (stepOp s op).1.vector = s.vector := by
  cases op <;> rfl

lemma runOps_vector (ops : List HWOp) : ∀ s : HelloWeldVector,
    (runOps s ops).1.vector = s.vector := by
  induction ops with
  | nil => intro s; rfl
  | cons op ops ih =>
    intro s
    rw [runOps]
    show (runOps (stepOp s op).1 ops).1.vector = s.vector
    rw [ih, stepOp_vector]

lemma adds_fold (ns : List Int) : ∀ s : HelloWeldVector,
    (ns.foldl HelloWeldVector.add s).weldobj.weld_code =
        mapNest s.weldobj.weld_code ns
    ∧ (ns.foldl HelloWeldVector.add s).vector = s.vector
    ∧ (ns.foldl HelloWeldVector.add s).weldobj.context = s.weldobj.context
    ∧ (ns.foldl HelloWeldVector.add s).weldobj.decoder = s.weldobj.decoder
    ∧ (ns.foldl HelloWeldVector.add s).weldobj.encoder = s.weldobj.encoder := by
  induction ns with
  | nil => intro s; exact ⟨rfl, rfl, rfl, rfl, rfl⟩
  | cons n ns ih =>
    intro s
    exact (ih (s.add n))

lemma size_shift : SIZE = 536870912 := by decide

/-- The baseline returns 418759311360 on the zero array of length `SIZE`. -/
lemma numpy_zero_array :
    run_numpy_addition (List.replicate SIZE (0 : Int)) = 418759311360 := by
  unfold run_numpy_addition
  rw [state_eq, int64Sum_eq, List.map_replicate, List.sum_replicate]
  have h1 : wrap32 ((0 : Int) + 780) = 780 := by decide
  rw [h1, size_shift]
  have h2 : (536870912 : Nat) • (780 : Int) = 418759311360 := by
    rw [nsmul_eq_mul]; norm_num
  rw [h2]
  decide

/-! ## The claims -/

/-- Claim C5: `run_numpy_addition(a)` with `ITERATIONS = 40` updates the
array eagerly — afterwards every element equals its original value plus
780, the sum 0 + 1 + ... + 39, in int32 wraparound arithmetic — and
returns the 64-bit sum of the updated elements; on a zero int32 array of
length `SIZE = 2 << 28` it returns 418759311360. -/
theorem numpy_addition_eager_update : ∀ a : List Int,
    run_numpy_addition_state a = a.map (fun x => wrap32 (x + 780))
    ∧ run_numpy_addition a = wrap64 ((a.map (fun x => wrap32 (x + 780))).sum)
    ∧ run_numpy_addition (List.replicate SIZE (0 : Int)) = 418759311360 := by
  intro a
  refine ⟨state_eq a, ?_, numpy_zero_array⟩
  unfold run_numpy_addition
  rw [state_eq, int64Sum_eq]

/-- Claim C1 (amended): for every int32 input array,
`run_numpy_addition_with_weld` — with the accelerator evaluating the
generated map/merger program by its documented semantics — returns exactly
the value `run_numpy_addition` returns on an equal copy; both return
`sum(a) + 780 * len(a)` in 64-bit arithmetic PROVIDED no element exceeds
`2^31 - 1 - 780` (so the elementwise int32 additions do not overflow); and
on the zero array of length `2 << 28` both return 418759311360. -/
theorem weld_refines_numpy : ∀ a : List Int,
    run_numpy_addition_with_weld a = some (run_numpy_addition a)
    ∧ ((∀ x ∈ a, -2147483648 ≤ x ∧ x ≤ 2147482867) →
        run_numpy_addition a = wrap64 (a.sum + 780 * a.length))
    ∧ run_numpy_addition_with_weld (List.replicate SIZE (0 : Int)) =
        some 418759311360
    ∧ run_numpy_addition (List.replicate SIZE (0 : Int)) = 418759311360 := by
  intro a
  refine ⟨run_weld_eq a, ?_, ?_, numpy_zero_array⟩
  · intro h
    unfold run_numpy_addition
    rw [state_eq, int64Sum_eq]
    have hmap : a.map (fun x => wrap32 (x + 780)) = a.map (fun x => x + 780) := by
      refine List.map_congr_left (fun x hx => ?_)
      have hb := h x hx
      exact wrap32_eq_self (x + 780) (by omega) (by omega)
    rw [hmap, sum_map_add_const]
  · rw [run_weld_eq, numpy_zero_array]

/-- Claim C1, witness: the amended theorem applied at the concrete int32
array `[5]`, whose elements satisfy the no-overflow bound. -/
theorem weld_refines_numpy_witness :
    run_numpy_addition_with_weld [(5 : Int)] = some (run_numpy_addition [(5 : Int)])
    ∧ run_numpy_addition [(5 : Int)] =
        wrap64 (List.sum [(5 : Int)] + 780 * (List.length [(5 : Int)])) :=
  ⟨(weld_refines_numpy [(5 : Int)]).1,
   (weld_refines_numpy [(5 : Int)]).2.1 (by decide)⟩

set_option maxRecDepth 8000 in
/-- Claim C1, counterexample: on the valid int32 input array
`[2147483647]` the baseline (and hence the accelerated pipeline, which
equals it) does NOT return `sum(a) + 780 * len(a)` in 64-bit arithmetic:
the elementwise updates overflow int32, giving -2147482869 rather than
2147484427. -/
theorem weld_formula_overflow_counterexample :
    run_numpy_addition [(2147483647 : Int)] ≠
      wrap64 (List.sum [(2147483647 : Int)] +
        780 * (List.length [(2147483647 : Int)])) := by decide

/-- Claim C2: `add` (and `+=` through `__iadd__`) never invokes the
runtime's `evaluate`: over any operation sequence the number of `evaluate`
calls equals the number of `vector_sum` operations, and a sequence of only
`add` calls produces no runtime call at all. -/
theorem evaluate_only_at_terminal_sum : ∀ (s : HelloWeldVector) (ops : List HWOp),
    (runOps s ops).2.length = ops.countP HWOp.isTerminalSum
    ∧ ∀ ns : List Int, (runOps s (ns.map HWOp.add)).2 = [] := by
  intro s ops
  refine ⟨runOps_events_length ops s, fun ns => ?_⟩
  have hlen : (runOps s (ns.map HWOp.add)).2.length = 0 := by
    rw [runOps_events_length]
    simp [List.countP_map, HWOp.isTerminalSum, Function.comp]
  exact List.eq_nil_of_length_eq_zero hlen

/-- Claim C3: starting from a freshly constructed `HelloWeldVector` whose
`WeldObject` assigned name `N` (its initial `weld_code`), the calls
`add(n1), ..., add(nk)` leave `weld_code` equal to the nested text
`map(...map(map(N, |e| e + n1), |e| e + n2)..., |e| e + nk)`, and change
nothing else: vector, context, and decoder are untouched. -/
theorem add_builds_nested_map_text : ∀ (v : List Int) (ns : List Int),
    (ns.foldl HelloWeldVector.add (HelloWeldVector.init v)).weldobj.weld_code =
        mapNest (HelloWeldVector.init v).weldobj.weld_code ns
    ∧ (ns.foldl HelloWeldVector.add (HelloWeldVector.init v)).vector =
        (HelloWeldVector.init v).vector
    ∧ (ns.foldl HelloWeldVector.add (HelloWeldVector.init v)).weldobj.context =
        (HelloWeldVector.init v).weldobj.context
    ∧ (ns.foldl HelloWeldVector.add (HelloWeldVector.init v)).weldobj.decoder =
        (HelloWeldVector.init v).weldobj.decoder := by
  intro v ns
  obtain ⟨h1, h2, h3, h4, _⟩ := adds_fold ns (HelloWeldVector.init v)
  exact ⟨h1, h2, h3, h4⟩

/-- Claim C4: after `vector_sum` returns, `weld_code` equals its value
before the call and the decoder is back to the NumPy array decoder
`_decoder`; the accumulated deferred program (and the context and wrapped
vector) survive materialization intact. -/
theorem vector_sum_restores_deferred_program : ∀ s : HelloWeldVector,
    s.vector_sum.2.weldobj.weld_code = s.weldobj.weld_code
    ∧ s.vector_sum.2.weldobj.decoder = _decoder
    ∧ s.vector_sum.2.weldobj.context = s.weldobj.context
    ∧ s.vector_sum.2.vector = s.vector :=
  fun _ => ⟨rfl, rfl, rfl, rfl⟩

/-- Claim C6: because `__init__` is installed as a classmethod, `vector`
and `weldobj` are class attributes: after constructing over `v1` and then
over `v2`, attribute lookups through BOTH instances see `v2`'s state, the
two instances share one `weldobj` (the one `__init__` built for `v2`), and
both instance dictionaries are empty and equal. -/
theorem classmethod_init_shares_class_state :
    ∀ (cls0 : Option HWClassAttrs) (v1 v2 : List Int),
    attrVector (constructHelloWeldVector
        (some (constructHelloWeldVector cls0 v1).1) v2).1
        (constructHelloWeldVector cls0 v1).2 = v2
    ∧ attrVector (constructHelloWeldVector
        (some (constructHelloWeldVector cls0 v1).1) v2).1
        (constructHelloWeldVector
          (some (constructHelloWeldVector cls0 v1).1) v2).2 = v2
    ∧ attrWeldobj (constructHelloWeldVector
        (some (constructHelloWeldVector cls0 v1).1) v2).1
        (constructHelloWeldVector cls0 v1).2 =
        (HelloWeldVector.init v2).weldobj
    ∧ (constructHelloWeldVector cls0 v1).2 =
        (constructHelloWeldVector
          (some (constructHelloWeldVector cls0 v1).1) v2).2 :=
  fun _ _ _ => ⟨rfl, rfl, rfl, rfl⟩

/-- Claim C7: `add` returns the very reference it was called on (no copy),
and `__iadd__` returns exactly `add`'s result, so `a += i` rebinds `a` to
the identical wrapper object. -/
theorem add_returns_same_object :
    ∀ (heap : List (Nat × HelloWeldVector)) (selfRef : Nat) (n : Int),
    (addOnHeap heap selfRef n).2 = selfRef
    ∧ iaddOnHeap heap selfRef n = addOnHeap heap selfRef n :=
  fun _ _ _ => ⟨rfl, rfl⟩

set_option maxRecDepth 8000 in
/-- Claim C8: no sequence of `add` / `vector_sum` operations ever writes
the wrapped NumPy array — it stays equal to the array given at
construction — unlike the baseline, which mutates its array in place
(shown on `[0]`, which the baseline turns into `[780]`). -/
theorem wrapper_never_mutates_array :
    ∀ (v : List Int) (ops : List HWOp),
    (runOps (HelloWeldVector.init v) ops).1.vector = v
    ∧ (∀ s : HelloWeldVector, (runOps s ops).1.vector = s.vector)
    ∧ run_numpy_addition_state [(0 : Int)] = [(780 : Int)] := by
  intro v ops
  refine ⟨runOps_vector ops (HelloWeldVector.init v), fun s => runOps_vector ops s, ?_⟩
  decide

/-- Claim C9: `vector_sum` contains no exception handling: when the
runtime's `evaluate` raises, the very same error propagates unchanged to
the caller, with no catching, translation, or retry. -/
theorem vector_sum_propagates_exception :
    ∀ {ε : Type} (ev : WeldObject → Except ε Int) (s : HelloWeldVector) (e : ε),
    ev { s.weldobj with
          weld_code := sumTemplate s.weldobj.weld_code
          decoder := WeldDecoder.scalarDecoder } = Except.error e →
    vectorSumWith ev s = Except.error e := by
  intro ε ev s e h
  simp only [vectorSumWith]
  rw [h]

/-- Claim C9, witness: the propagation theorem applied to a concrete
always-failing evaluator on a concrete wrapper. -/
theorem vector_sum_propagates_exception_witness :
    vectorSumWith (fun _ => Except.error (7 : Nat)) (HelloWeldVector.init [(1 : Int)]) =
      Except.error 7 :=
  vector_sum_propagates_exception _ _ _ rfl

/-- Claim C10: the notebook's own code performs no concurrency control
beyond environment configuration: every operating-system effect it performs
sets `WELD_NUM_THREADS` to `"1"` or `"4"` for the external runtime. -/
theorem only_env_thread_config :
    notebookOsEffects.all OsEffect.isThreadCountConfig = true := by decide
